import Mathlib

/-!
Verification development for the `shalom` Home Assistant client
(`src/shalom/src/hass_client.rs`).

The connection actor spawned by `create` is embedded as an explicit step
function over its state (`counter`, `ready_send`, `pending`): one call of
`actorStep` models one iteration of the actor's `tokio::select!` loop.
A `none` result models a panic of the actor task (an `unwrap()` failing).
Effects performed on the environment (frames written to the socket, reply
channel sends, broadcast publishes, log lines) are recorded as a list of
`Output`s.

The `broadcast` event bus (tokio `broadcast::channel(10)`, whose requested
capacity is rounded up to the next power of two, a 16-slot ring) is
embedded as an ever-growing log plus per-receiver cursors; the ring buffer
is reflected in the receive rule: an entry at position `i` is readable only
while fewer than `capacity` newer entries exist, otherwise the receiver
observes a lag and is skipped ahead, exactly as `tokio::sync::broadcast`
does.
-/

namespace Shalom

/-- A JSON scalar appearing in the wire frames the client writes. -/
inductive JVal
  | s (v : String)
  | n (v : Nat)
  | null
deriving DecidableEq, Repr

/-- `responses::State` (`entity_id`, `state`, `attributes`).  The source
parses `attributes` into a per-domain union (`StateAttributes`); none of the
claims inspect it, so it is kept as the raw attributes payload text. -/
structure State where
  entity_id : String
  state : String
  attributes : String
deriving DecidableEq, Repr

/-- `events::StateChanged`. -/
structure StateChanged where
  entity_id : String
  old_state : State
  new_state : State
deriving DecidableEq, Repr

/-- `Event` — tagged union of push events; currently one variant. -/
inductive Event
  | StateChanged (data : StateChanged)
deriving DecidableEq, Repr

/-- `HassResponseType` — the `type` discriminant of an inbound frame. -/
inductive HassResponseType
  | AuthRequired
  | AuthOk
  | AuthInvalid
  | Result
  | Event
deriving DecidableEq, Repr

/-- `HassResponse` — the response envelope deserialized from an inbound text
frame.  `result` is an `Option<&RawValue>` in the source: the raw JSON text
of the result payload. -/
structure HassResponse where
  id : Option Nat
  type_ : HassResponseType
  result : Option String
  event : Option Event
deriving DecidableEq, Repr

/-- Modelled from the spec: the light actions of the `call_service` command
(turn-on with brightness / hs colour, turn-off).  The defining code is
missing from `src/` — only its callers in `oracle.rs` remain — so the shape
follows the spec's words and those call sites; numeric fields are embedded
as rationals. -/
inductive CallServiceRequestLight
  | TurnOn (brightness : Option Nat) (hs_color : Option (Rat × Rat))
  | TurnOff
deriving DecidableEq, Repr

/-- Modelled from the spec: repeat mode for media players (callers in
`oracle.rs` reference `MediaPlayerRepeat`). -/
inductive MediaPlayerRepeat
  | Off
  | All
  | One
deriving DecidableEq, Repr

/-- Modelled from the spec: the media-player actions of the `call_service`
command (volume/seek/play/pause/shuffle/repeat/track-navigation), following
the call sites in `oracle.rs`. -/
inductive CallServiceRequestMediaPlayer
  | VolumeMute (is_volume_muted : Bool)
  | VolumeSet (volume_level : Rat)
  | MediaSeek (seek_position : Rat)
  | ShuffleSet (shuffle : Bool)
  | RepeatSet (repeat_mode : MediaPlayerRepeat)
  | MediaPlay
  | MediaPause
  | MediaNextTrack
  | MediaPreviousTrack
deriving DecidableEq, Repr

/-- Modelled from the spec: the domain-specific action payload of
`call_service` (light or media-player actions). -/
inductive CallServiceRequestData
  | Light (action : CallServiceRequestLight)
  | MediaPlayer (action : CallServiceRequestMediaPlayer)
deriving DecidableEq, Repr

/-- `HassRequestKind` — closed tagged union of outbound commands.  The six
variants `Auth` … `SubscribeEvents` are translated from
`hass_client.rs:199-215`; `CallService` is modelled from the spec (its
definition is missing from `src/`, only callers in `oracle.rs` remain): it
carries a target entity id and a domain-specific action payload and
serializes with tag `"call_service"`. -/
inductive HassRequestKind
  | Auth (access_token : String)
  | GetStates
  | AreaRegistry
  | EntityRegistry
  | DeviceRegistry
  | SubscribeEvents (event_type : Option String)
  | CallService (entity_id : String) (data : CallServiceRequestData)
deriving DecidableEq, Repr

/-- The serde `type` tag of each request variant (`rename_all = snake_case`
with explicit renames for the registry listings). -/
def HassRequestKind.tag : HassRequestKind → String
  | .Auth _ => "auth"
  | .GetStates => "get_states"
  | .AreaRegistry => "config/area_registry/list"
  | .EntityRegistry => "config/entity_registry/list"
  | .DeviceRegistry => "config/device_registry/list"
  | .SubscribeEvents _ => "subscribe_events"
  | .CallService _ _ => "call_service"

/-- The domain string of a `call_service` payload (modelled from the spec:
light vs media-player actions). -/
def CallServiceRequestData.domain : CallServiceRequestData → String
  | .Light _ => "light"
  | .MediaPlayer _ => "media_player"

/-- The serialized body fields of each request variant, following serde's
declaration order; the `SubscribeEvents` field has no
`skip_serializing_if`, so a `None` `event_type` serializes as `null`; the
`CallService` fields are modelled from the
spec (target entity id plus the action payload's domain). -/
def HassRequestKind.fields : HassRequestKind → List (String × JVal)
  | .Auth tok => [("access_token", JVal.s tok)]
  | .GetStates => []
  | .AreaRegistry => []
  | .EntityRegistry => []
  | .DeviceRegistry => []
  | .SubscribeEvents none => [("event_type", JVal.null)]
  | .SubscribeEvents (some t) => [("event_type", JVal.s t)]
  | .CallService tgt d => [("entity_id", JVal.s tgt), ("domain", JVal.s d.domain)]

/-- `HassRequest` — the request envelope: optional id plus flattened
operation. -/
structure HassRequest where
  id : Option Nat
  inner : HassRequestKind
deriving DecidableEq, Repr

/-- `HassRequest::to_request` — the JSON object written to the socket, as an
ordered field list: `id` only when present (serde
`skip_serializing_if = "Option::is_none"`), then the flattened internally
tagged operation: its `type` tag followed by its own fields. -/
def HassRequest.to_request (r : HassRequest) : List (String × JVal) :=
  (match r.id with
   | some i => [("id", JVal.n i)]
   | none => []) ++ ("type", JVal.s r.inner.tag) :: r.inner.fields

/-- An inbound transport message (`tokio_tungstenite::tungstenite::Message`).
A `Text` frame carries the outcome of `serde_json::from_str::<HassResponse>`
on its payload (`none` models text that fails to deserialize — the source
calls the library parser inside `Yoke::attach_to_cart` and `unwrap`s it);
`Pong` carries its raw byte payload; every other frame kind falls into the
source's catch-all arm. -/
inductive Message
  | Pong (payload : List (Fin 256))
  | Text (parsed : Option HassResponse)
  | Close
  | Other
deriving DecidableEq, Repr

/-- One firing of the actor's `tokio::select!`:
either an inbound transport message (`frame none` models
`connection.next()` yielding `Some(Err(..))`, which the source `unwrap`s),
or a queued `(operation, reply-channel)` pair from the client inbox
(reply channels are named by `Nat` tokens), or a keep-alive interval tick. -/
inductive ActorInput
  | frame (m : Option Message)
  | inbox (inner : HassRequestKind) (reply : Nat)
  | tick
deriving DecidableEq, Repr

/-- The state owned by the connection actor task: the id `counter`
(a `u64`, starting at 0), the one-shot readiness sender (`Option` because
the source `take()`s it on `auth_ok`), and the `pending` table from request
id to reply channel (a `HashMap<u64, oneshot::Sender<..>>`, embedded as an
association list with unique keys). -/
structure ActorState where
  counter : Nat
  ready_send : Option Unit
  pending : List (Nat × Nat)
deriving DecidableEq, Repr

/-- Effects the actor performs on its environment, in program order:
frames written to the socket, the readiness signal to the blocked
`connect()` caller, payload delivery attempts into reply channels, events
published to the broadcast bus, keep-alive pings and log lines. -/
inductive Output
  | wireSend (frame : List (String × JVal))
  | wirePing
  | readySignal
  | replySend (chan : Nat) (payload : String)
  | publish (e : Event)
  | logLine (line : String)
  | rttLog (ts : Int)
deriving DecidableEq, Repr

/-- `u64` modulus: the id counter is a `u64`, so its increment wraps at
`2 ^ 64` (release-mode Rust semantics). -/
def u64Size : Nat := 2 ^ 64

/-- `HashMap::remove`'s effect on the key set: drop the entry with the given
key (association lists built by the actor have unique keys). -/
def eraseKey (l : List (Nat × Nat)) (k : Nat) : List (Nat × Nat) :=
  l.eraseP (fun e => e.1 == k)

/-- `HashMap::insert`: bind `k` to `v`, replacing any previous binding. -/
def mapInsert (l : List (Nat × Nat)) (k v : Nat) : List (Nat × Nat) :=
  (k, v) :: eraseKey l k

/-- Big-endian bytes to unsigned value (`foldl` over the 16 pong bytes). -/
def beBytesToNat (bs : List (Fin 256)) : Nat :=
  bs.foldl (fun a b => a * 256 + b.val) 0

/-- `i128::from_be_bytes`: two's-complement reading of 16 big-endian
bytes. -/
def i128FromBeBytes (bs : List (Fin 256)) : Int :=
  if beBytesToNat bs < 2 ^ 127 then (beBytesToNat bs : Int)
  else (beBytesToNat bs : Int) - 2 ^ 128

/-- The nanosecond range accepted by
`time::OffsetDateTime::from_unix_timestamp_nanos` (years −9999 … 9999):
its `unwrap` in the pong handler succeeds exactly on this range. -/
def validNanos (ts : Int) : Bool :=
  decide (-377705116800000000000 ≤ ts) && decide (ts ≤ 253402300799999999999)

/-- `tokio::sync::oneshot::Sender::send`: succeeds when the receiver is
still alive, otherwise gives the payload back as an error.  The actor
discards this result (`let _res = channel.send(payload)`). -/
def oneshotSend (receiverAlive : Bool) (payload : String) : Except String Unit :=
  if receiverAlive then Except.ok () else Except.error payload

/-- One iteration of the actor loop spawned by `create`
(`hass_client.rs:64-152`).  `alive` tells, per reply-channel token, whether
that channel's receiver still exists (the caller may have abandoned its
`request()` future); `token` is `config.token`.  `none` models a panic of
the actor task (a failing `unwrap()`):
* a transport read error (`message.unwrap()`, line 67);
* a pong payload that is not 16 bytes or an out-of-range timestamp
  (lines 72-73);
* a text frame that does not deserialize as `HassResponse` (line 78);
* `auth_ok` after the readiness sender was already taken (line 101);
* a `result` frame with no id (line 117);
* an `event` frame with no event payload (line 125). -/
def actorStep (alive : Nat → Bool) (token : String) (s : ActorState) :
    ActorInput → Option (ActorState × List Output)
  | .frame none => none
  | .frame (some (.Pong payload)) =>
      if payload.length = 16 then
        if validNanos (i128FromBeBytes payload) then
          some (s, [.rttLog (i128FromBeBytes payload)])
        else none
      else none
  | .frame (some (.Text none)) => none
  | .frame (some (.Text (some payload))) =>
      match payload.type_ with
      | .AuthRequired =>
          some (s, [.wireSend (HassRequest.to_request ⟨none, .Auth token⟩)])
      | .AuthInvalid => some (s, [.logLine "invalid auth"])
      | .AuthOk =>
          match s.ready_send with
          | none => none
          | some _ =>
              some ({ s with ready_send := none,
                             counter := (s.counter + 1) % u64Size },
                    [.readySignal,
                     .wireSend (HassRequest.to_request
                       ⟨some ((s.counter + 1) % u64Size),
                        .SubscribeEvents (some "state_changed")⟩)])
      | .Result =>
          match payload.id with
          | none => none
          | some i =>
              match List.lookup i s.pending, payload.result with
              | some chan, some res =>
                  let _res := oneshotSend (alive chan) res
                  some ({ s with pending := eraseKey s.pending i },
                        [.replySend chan res])
              | _, _ => some ({ s with pending := eraseKey s.pending i }, [])
      | .Event =>
          match payload.event with
          | none => none
          | some e => some (s, [.publish e])
  | .frame (some .Close) => some (s, [])
  | .frame (some .Other) => some (s, [])
  | .inbox inner reply =>
      some ({ s with counter := (s.counter + 1) % u64Size,
                     pending := mapInsert s.pending ((s.counter + 1) % u64Size) reply },
            [.wireSend (HassRequest.to_request
              ⟨some ((s.counter + 1) % u64Size), inner⟩)])
  | .tick => some (s, [.wirePing])

/-- The actor loop over a list of select-firings, accumulating outputs in
order; `none` as soon as one iteration panics. -/
def actorRun (alive : Nat → Bool) (token : String) :
    ActorState → List ActorInput → Option (ActorState × List Output)
  | s, [] => some (s, [])
  | s, i :: rest =>
      match actorStep alive token s i with
      | none => none
      | some (s', out) =>
          match actorRun alive token s' rest with
          | none => none
          | some (s'', outs) => some (s'', out ++ outs)

/-- The actor state at spawn time (`counter = 0`, readiness sender armed,
empty pending table). -/
def initState : ActorState := ⟨0, some (), []⟩

/-- The ids carried by the frames the actor wrote, in write order. -/
def issuedIds (outs : List Output) : List Nat :=
  outs.filterMap fun o =>
    match o with
    | .wireSend f =>
        match List.lookup "id" f with
        | some (JVal.n i) => some i
        | _ => none
    | _ => none

/-- The event bus, `tokio::sync::broadcast`: conceptually an ever-growing
log of published values of which only the most recent `capacity` are
retained in the ring buffer.  Each receiver is a cursor into the log. -/
structure Bus (α : Type) where
  capacity : Nat
  log : List α
deriving DecidableEq, Repr

/-- `broadcast::Sender::send`: append the value to the log (the ring drops
the oldest entry once more than `capacity` are live, which the receive rule
accounts for). -/
def Bus.send {α} (b : Bus α) (v : α) : Bus α :=
  { b with log := b.log ++ [v] }

/-- `Sender::subscribe` (`Client::subscribe`, `hass_client.rs:41-43`): a new
receiver starts at the current tail of the log, so it observes only events
published after it subscribed. -/
def Bus.subscribeCursor {α} (b : Bus α) : Nat := b.log.length

/-- Outcome of one `broadcast::Receiver::recv` call. -/
inductive RecvResult (α : Type)
  | item (v : α) (next : Nat)
  | lagged (next : Nat)
  | empty
deriving DecidableEq, Repr

/-- `broadcast::Receiver::recv` for a receiver whose cursor is `c`:
nothing yet if the cursor is at the tail; a `Lagged` error that skips the
cursor ahead to the oldest retained entry if more than `capacity` newer
values were published; otherwise the value at the cursor. -/
def Bus.recvAt {α} (b : Bus α) (c : Nat) : RecvResult α :=
  if b.log.length ≤ c then .empty
  else if c + b.capacity < b.log.length then .lagged (b.log.length - b.capacity)
  else
    match b.log[c]? with
    | some v => .item v (c + 1)
    | none => .empty

/-- Repeatedly `recv` until the bus is drained (fuel-bounded recursion; any
fuel at least the log length suffices).  Each received value is paired with
the log position it was read from, so "one copy of *that* event" can be
expressed even when equal values are published twice. -/
def Bus.drain {α} (b : Bus α) : Nat → Nat → List (Nat × α)
  | _, 0 => []
  | c, fuel + 1 =>
      match b.recvAt c with
      | .empty => []
      | .item v c' => (c, v) :: b.drain c' fuel
      | .lagged c' => b.drain c' fuel

/-- The actor's bus after publishing the events `E` in order, starting from
the `broadcast::channel(10)` created in `create` (`hass_client.rs:55`).
tokio's broadcast channel rounds the requested capacity up to the next
power of two — the ring is indexed with `pos & mask` — so the actual ring
holds 16 values. -/
def busOf (E : List Event) : Bus Event :=
  E.foldl Bus.send ⟨16, []⟩

/-- `Client::request` (`hass_client.rs:27-39`), seen from the calling task:
`sendRes` is the outcome of `self.sender.send(..)` (`none` when the actor's
inbox is closed because the actor task is gone), `recvRes` the outcome of
awaiting the reply channel (`none` when the actor dropped the reply sender
without sending), and `deser` the caller-chosen `serde_json::from_str::<T>`
on the delivered raw result payload (`none` on a payload that is not a
`T`).  Every step is `unwrap`ped in the source, so a `none` anywhere makes
the whole call `none` — a panic of the calling task, never an error
value. -/
def request {T : Type} (sendRes : Option Unit) (recvRes : Option String)
    (deser : String → Option T) : Option T :=
  match sendRes with
  | none => none
  | some _ =>
      match recvRes with
      | none => none
      | some raw => deser raw

/-- The all-receivers-alive liveness assignment. -/
def aliveT : Nat → Bool := fun _ => true

/-- The inbound `result` frame with id `k` and raw result payload `p`. -/
def resultFrame (k : Nat) (p : String) : ActorInput :=
  .frame (some (.Text (some ⟨some k, .Result, some p, none⟩)))

/-- The inbound `auth_required` frame. -/
def authRequiredFrame : ActorInput :=
  .frame (some (.Text (some ⟨none, .AuthRequired, none, none⟩)))

/-- The inbound `auth_ok` frame. -/
def authOkFrame : ActorInput :=
  .frame (some (.Text (some ⟨none, .AuthOk, none, none⟩)))

/-- The inbound `auth_invalid` frame. -/
def authInvalidFrame : ActorInput :=
  .frame (some (.Text (some ⟨none, .AuthInvalid, none, none⟩)))

theorem lookup_none_eraseKey (l : List (Nat × Nat)) (k : Nat)
    (h : List.lookup k l = none) : eraseKey l k = l := by
  induction l with
  | nil => rfl
  | cons a t ih =>
      obtain ⟨k', v⟩ := a
      by_cases hk : k = k'
      · subst hk; simp [List.lookup] at h
      · have hb : (k == k') = false := by simpa using hk
        have hb' : (k' == k) = false := by simpa using (Ne.symm hk)
        simp only [List.lookup, hb] at h
        unfold eraseKey at ih ⊢
        simp [List.eraseP_cons, hb', ih h]

/-- C1: on a `result` frame carrying an id and a result payload, the actor
removes the pending entry with that id and delivers the payload through
exactly that entry's reply channel, whatever the arrival order (dispatch is
pure id lookup); a `result` frame whose id matches no pending entry leaves
the state unchanged and the actor alive; and the step is entirely
insensitive to whether any reply channel's receiver was abandoned (the
source discards `channel.send`'s result), so delivery into a dead channel
is a silent no-op, never a crash. -/
theorem result_dispatch (alive alive' : Nat → Bool) (token : String)
    (s : ActorState) (k : Nat) (p : String) :
    actorStep alive token s (resultFrame k p) =
      actorStep alive' token s (resultFrame k p)
    ∧ (∀ ch, List.lookup k s.pending = some ch →
        actorStep alive token s (resultFrame k p) =
          some ({ s with pending := eraseKey s.pending k }, [.replySend ch p]))
    ∧ (List.lookup k s.pending = none →
        actorStep alive token s (resultFrame k p) = some (s, [])) := by
  refine ⟨?_, ?_, ?_⟩
  · cases h : List.lookup k s.pending <;> simp [actorStep, resultFrame, h]
  · intro ch h; simp [actorStep, resultFrame, h]
  · intro h; simp [actorStep, resultFrame, h, lookup_none_eraseKey s.pending k h]

/-- A pending table holding reply channels `7` (for id 1) and `9`
(for id 2). -/
def stateW : ActorState := ⟨2, none, [(1, 7), (2, 9)]⟩

/-- C1 witness: with ids 1 and 2 pending, a `result` frame for id 1 pays
channel 7 and removes only that entry; a `result` frame for the unknown
id 5 is dropped; and the step does not depend on receiver liveness. -/
theorem result_dispatch_witness :
    actorStep aliveT "t" stateW (resultFrame 1 "payload")
      = some (⟨2, none, [(2, 9)]⟩, [.replySend 7 "payload"])
    ∧ actorStep aliveT "t" stateW (resultFrame 5 "payload") = some (stateW, [])
    ∧ actorStep aliveT "t" stateW (resultFrame 1 "payload")
      = actorStep (fun _ => false) "t" stateW (resultFrame 1 "payload") := by
  refine ⟨?_, ?_, ?_⟩
  · exact ((result_dispatch aliveT aliveT "t" stateW 1 "payload").2.1 7
      (by decide)).trans (by decide)
  · exact (result_dispatch aliveT aliveT "t" stateW 5 "payload").2.2 (by decide)
  · exact (result_dispatch aliveT (fun _ => false) "t" stateW 1 "payload").1

/-- C3 (code bug): on `auth_invalid` the actor only prints
`"invalid auth"` to stderr (`hass_client.rs:97-99`) and keeps its state —
the readiness sender is still armed, no failure or readiness signal is
delivered, so the `connect()` caller blocked on `ready_recv.await` keeps
waiting forever instead of aborting with an explicit failure. -/
theorem auth_invalid_only_logged :
    actorStep aliveT "t" initState authInvalidFrame
      = some (initState, [.logLine "invalid auth"])
    ∧ initState.ready_send = some () := ⟨rfl, rfl⟩

/-- C4 (code bug): a text frame whose payload does not deserialize as the
response envelope (`serde_json::from_str(..).unwrap()`,
`hass_client.rs:78`) and a transport-level read error
(`message.unwrap()`, line 67) both panic the actor task (`none`) rather
than being rejected locally with the loop continuing. -/
theorem malformed_frame_panics :
    actorStep aliveT "t" initState (.frame (some (.Text none))) = none
    ∧ actorStep aliveT "t" initState (.frame none) = none := ⟨rfl, rfl⟩

/-- C5 (amended): on a `Close` frame the actor does nothing at all — the
reconnect code is commented out (`hass_client.rs:130-133`) — so its state,
including every pending request entry, is untouched and no output of any
kind (in particular no failure delivery into a pending reply channel) is
produced; a pending `request()` therefore keeps waiting instead of
resolving with a connection-lost failure. -/
theorem close_frame_noop (alive : Nat → Bool) (token : String) (s : ActorState) :
    actorStep alive token s (.frame (some .Close)) = some (s, []) := rfl

/-- A state with the request id 1 pending on reply channel 5. -/
def statePending : ActorState := ⟨1, none, [(1, 5)]⟩

/-- C5 counterexample: with request id 1 pending, the server's close frame
produces no output — the pending entry is still there afterwards and
nothing was delivered into its reply channel, refuting "that request
resolves with a connection-lost failure". -/
theorem close_frame_counterexample :
    actorStep aliveT "t" statePending (.frame (some .Close))
      = some (statePending, [])
    ∧ List.lookup 1 statePending.pending = some 5 := ⟨rfl, rfl⟩

/-- C5 witness: the close no-op applied at a concrete state holding a
pending entry. -/
theorem close_frame_noop_witness :
    actorStep aliveT "tok" ⟨4, none, [(4, 9)]⟩ (.frame (some .Close))
      = some (⟨4, none, [(4, 9)]⟩, []) :=
  close_frame_noop aliveT "tok" ⟨4, none, [(4, 9)]⟩

/-- C9: the pong handler asserts its payload is exactly 16 bytes
(`ts.try_into().unwrap()`) and decodes them as a big-endian `i128`
nanosecond timestamp that must be in `OffsetDateTime`'s supported range
(`from_unix_timestamp_nanos(ts).unwrap()`); a pong of any other length, or
one carrying an out-of-range timestamp, panics the actor task instead of
being ignored. -/
theorem pong_asserts_16_bytes (alive : Nat → Bool) (token : String)
    (s : ActorState) (payload : List (Fin 256)) :
    (payload.length ≠ 16 →
      actorStep alive token s (.frame (some (.Pong payload))) = none)
    ∧ (payload.length = 16 → validNanos (i128FromBeBytes payload) = true →
      actorStep alive token s (.frame (some (.Pong payload)))
        = some (s, [.rttLog (i128FromBeBytes payload)]))
    ∧ (payload.length = 16 → validNanos (i128FromBeBytes payload) = false →
      actorStep alive token s (.frame (some (.Pong payload))) = none) := by
  refine ⟨fun h => ?_, fun h hv => ?_, fun h hv => ?_⟩ <;>
    simp_all [actorStep]

/-- C9 witness: a 16-byte all-zero pong decodes to timestamp 0 (valid) and
is logged; an empty pong panics the actor. -/
theorem pong_asserts_16_bytes_witness :
    actorStep aliveT "t" initState
        (.frame (some (.Pong (List.replicate 16 (0 : Fin 256)))))
      = some (initState, [.rttLog 0])
    ∧ actorStep aliveT "t" initState (.frame (some (.Pong []))) = none := by
  constructor
  · exact ((pong_asserts_16_bytes aliveT "t" initState
      (List.replicate 16 (0 : Fin 256))).2.1 (by decide) (by decide)).trans
      (by decide)
  · exact (pong_asserts_16_bytes aliveT "t" initState []).1 (by decide)

/-- C10: `Client::request::<T>` unwraps every step — the inbox send, the
reply-channel await, and the deserialization of the raw result payload into
the caller-chosen `T` — so a vanished actor task, a dropped reply channel,
or a result payload that is not a `T` all panic the calling task (`none`)
instead of yielding an error value; only when all three succeed does the
call resolve, with the deserialized value. -/
theorem request_unwraps_every_step {T : Type} (deser : String → Option T)
    (recvRes : Option String) (raw : String) (v : T) :
    request none recvRes deser = none
    ∧ request (some ()) none deser = none
    ∧ (deser raw = none → request (some ()) (some raw) deser = none)
    ∧ (deser raw = some v → request (some ()) (some raw) deser = some v) :=
  ⟨rfl, rfl, fun h => h, fun h => h⟩

/-- C10 witness: with a deserializer accepting only `"5"`, a dead inbox, a
dropped reply channel and the payload `"x"` all panic, while `"5"`
resolves. -/
theorem request_unwraps_every_step_witness :
    request none (some "5") (fun s => if s = "5" then some 5 else none) = none
    ∧ request (some ()) (some "x") (fun s => if s = "5" then some 5 else none) = none
    ∧ request (some ()) (some "5") (fun s => if s = "5" then some 5 else none) = some 5 := by
  refine ⟨?_, ?_, ?_⟩
  · exact (request_unwraps_every_step (fun s => if s = "5" then some 5 else none)
      (some "5") "x" 5).1
  · exact (request_unwraps_every_step (fun s => if s = "5" then some 5 else none)
      (some "5") "x" 5).2.2.1 (by decide)
  · exact (request_unwraps_every_step (fun s => if s = "5" then some 5 else none)
      (some "5") "5" 5).2.2.2 (by decide)

/-- C7 (CallService modelled from the spec, its definition being missing
from `src/`): the request-operation type is a closed union of exactly the
seven commands, and a `CallService` request serializes with the `type`
discriminant `"call_service"`. -/
theorem request_kind_closed_union :
    (∀ k : HassRequestKind,
      (∃ t, k = .Auth t) ∨ k = .GetStates ∨ k = .AreaRegistry
      ∨ k = .EntityRegistry ∨ k = .DeviceRegistry
      ∨ (∃ e, k = .SubscribeEvents e) ∨ (∃ tgt d, k = .CallService tgt d))
    ∧ (∀ (i : Option Nat) (tgt : String) (d : CallServiceRequestData),
        List.lookup "type" (HassRequest.to_request ⟨i, .CallService tgt d⟩)
          = some (JVal.s "call_service")) := by
  constructor
  · intro k; cases k <;> simp
  · intro i tgt d; cases i <;> rfl

/-- C7 witness: a concrete id-1 `call_service` request for
`light.kitchen` carries the `"call_service"` type discriminant. -/
theorem request_kind_closed_union_witness :
    List.lookup "type" (HassRequest.to_request
        ⟨some 1, .CallService "light.kitchen" (.Light .TurnOff)⟩)
      = some (JVal.s "call_service") :=
  request_kind_closed_union.2 (some 1) "light.kitchen" (.Light .TurnOff)

/-- C2: the auth handshake in order — on `auth_required` the actor sends
`{"type":"auth","access_token":<token>}` with no `id` field; on `auth_ok`
it first signals the oneshot that `connect()` is blocked on
(`ready_recv.await` at `hass_client.rs:155` — `create` builds the `Client`
handle only after this resolves, so a caller never obtains a handle before
auth succeeds) and then immediately writes a `subscribe_events` request
with `event_type` `"state_changed"`, with no action from the caller;
and the readiness signal is produced by no input other than an `auth_ok`
frame. -/
theorem auth_handshake (alive : Nat → Bool) (token : String) (s : ActorState)
    (hready : s.ready_send = some ()) (hc : s.counter + 1 < u64Size) :
    actorStep alive token s authRequiredFrame
      = some (s, [.wireSend [("type", JVal.s "auth"), ("access_token", JVal.s token)]])
    ∧ actorStep alive token s authOkFrame
      = some ({ s with ready_send := none, counter := s.counter + 1 },
              [.readySignal,
               .wireSend [("id", JVal.n (s.counter + 1)),
                          ("type", JVal.s "subscribe_events"),
                          ("event_type", JVal.s "state_changed")]])
    ∧ (∀ (s' : ActorState) (i : ActorInput) (r : ActorState × List Output),
        actorStep alive token s' i = some r → Output.readySignal ∈ r.2 →
          ∃ resp : HassResponse,
            i = .frame (some (.Text (some resp))) ∧ resp.type_ = .AuthOk) := by
  refine ⟨?_, ?_, ?_⟩
  · simp [actorStep, authRequiredFrame, HassRequest.to_request,
      HassRequestKind.tag, HassRequestKind.fields]
  · simp [actorStep, authOkFrame, hready, Nat.mod_eq_of_lt hc,
      HassRequest.to_request, HassRequestKind.tag, HassRequestKind.fields]
  · intro s' i r h hmem
    cases i with
    | tick => simp [actorStep] at h; subst h; simp at hmem
    | inbox inner reply => simp [actorStep] at h; subst h; simp at hmem
    | frame m =>
      cases m with
      | none => simp [actorStep] at h
      | some msg =>
        cases msg with
        | Close => simp [actorStep] at h; subst h; simp at hmem
        | Other => simp [actorStep] at h; subst h; simp at hmem
        | Pong payload =>
          simp [actorStep] at h
          obtain ⟨-, -, h3⟩ := h
          subst h3; simp at hmem
        | Text parsed =>
          cases parsed with
          | none => simp [actorStep] at h
          | some resp =>
            obtain ⟨rid, rty, rres, rev⟩ := resp
            cases rty with
            | AuthRequired => simp [actorStep] at h; subst h; simp at hmem
            | AuthInvalid => simp [actorStep] at h; subst h; simp at hmem
            | AuthOk => exact ⟨⟨rid, .AuthOk, rres, rev⟩, rfl, rfl⟩
            | Result =>
              simp only [actorStep] at h
              cases rid with
              | none => simp at h
              | some k =>
                simp only at h
                cases hlk : List.lookup k s'.pending with
                | none =>
                  cases rres <;> simp [hlk] at h <;> subst h <;> simp at hmem
                | some chan =>
                  cases rres with
                  | none => simp [hlk] at h; subst h; simp at hmem
                  | some res => simp [hlk] at h; subst h; simp at hmem
            | Event =>
              simp only [actorStep] at h
              cases rev with
              | none => simp at h
              | some e => simp at h; subst h; simp at hmem

/-- C2 witness: from the freshly spawned actor state with token `"t"`,
`auth_required` elicits exactly `{"type":"auth","access_token":"t"}` and
`auth_ok` elicits the readiness signal followed by the id-1
`subscribe_events state_changed` frame. -/
theorem auth_handshake_witness :
    actorStep aliveT "t" initState authRequiredFrame
      = some (initState,
          [.wireSend [("type", JVal.s "auth"), ("access_token", JVal.s "t")]])
    ∧ actorStep aliveT "t" initState authOkFrame
      = some (⟨1, none, []⟩,
          [.readySignal,
           .wireSend [("id", JVal.n 1), ("type", JVal.s "subscribe_events"),
                      ("event_type", JVal.s "state_changed")]]) := by
  have h := auth_handshake aliveT "t" initState rfl (by decide)
  exact ⟨h.1, h.2.1.trans (by decide)⟩

def pendingKeys (l : List (Nat × Nat)) : List Nat := l.map Prod.fst

theorem lookup_none_of_forall_lt (l : List (Nat × Nat)) (k : Nat)
    (h : ∀ k' ∈ pendingKeys l, k' < k) : List.lookup k l = none := by
  induction l with
  | nil => rfl
  | cons a t ih =>
      obtain ⟨k', v⟩ := a
      have hne : k ≠ k' := by
        have := h k' (by simp [pendingKeys])
        omega
      have hb : (k == k') = false := by simpa using hne
      simp only [List.lookup, hb]
      exact ih (fun k'' hk'' => h k'' (by simp [pendingKeys] at hk'' ⊢; exact Or.inr hk''))

def Inv (s : ActorState) : Prop :=
  (∀ k ∈ pendingKeys s.pending, 1 ≤ k ∧ k ≤ s.counter) ∧ (pendingKeys s.pending).Nodup

theorem pendingKeys_erase_sublist (l : List (Nat × Nat)) (k : Nat) :
    List.Sublist (pendingKeys (eraseKey l k)) (pendingKeys l) :=
  (List.eraseP_sublist l).map Prod.fst

theorem Inv_erase (s : ActorState) (hinv : Inv s) (k : Nat) :
    Inv { s with pending := eraseKey s.pending k } :=
  ⟨fun k' hk' => hinv.1 k' ((pendingKeys_erase_sublist s.pending k).subset hk'),
   hinv.2.sublist (pendingKeys_erase_sublist s.pending k)⟩

theorem pendingKeys_mapInsert (l : List (Nat × Nat)) (k v : Nat) :
    pendingKeys (mapInsert l k v) = k :: pendingKeys (eraseKey l k) := by
  simp [pendingKeys, mapInsert]

theorem Inv_insert (c : Nat) (l : List (Nat × Nat)) (ch : Nat)
    (h1 : ∀ k ∈ pendingKeys l, 1 ≤ k ∧ k ≤ c) (h2 : (pendingKeys l).Nodup) :
    (∀ k ∈ pendingKeys (mapInsert l (c + 1) ch), 1 ≤ k ∧ k ≤ c + 1)
    ∧ (pendingKeys (mapInsert l (c + 1) ch)).Nodup := by
  have sub := pendingKeys_erase_sublist l (c + 1)
  constructor
  · intro k hk
    rw [pendingKeys_mapInsert] at hk
    rcases List.mem_cons.mp hk with rfl | hk
    · omega
    · have := h1 k (sub.subset hk)
      omega
  · rw [pendingKeys_mapInsert]
    refine List.nodup_cons.mpr ⟨fun hmem => ?_, h2.sublist sub⟩
    have := h1 _ (sub.subset hmem)
    omega

theorem conclude_zero (s s' : ActorState) (hinv : Inv s') (hcnt : s'.counter = s.counter)
    (out : List Output) (hout : issuedIds out = []) :
    Inv s' ∧ s.counter ≤ s'.counter ∧ s'.counter ≤ s.counter + 1 ∧
      issuedIds out = List.range' (s.counter + 1) (s'.counter - s.counter) := by
  refine ⟨hinv, by omega, by omega, ?_⟩
  rw [hcnt, Nat.sub_self, hout]
  rfl

theorem conclude_one (s s' : ActorState) (hinv : Inv s') (hcnt : s'.counter = s.counter + 1)
    (out : List Output) (hout : issuedIds out = [s.counter + 1]) :
    Inv s' ∧ s.counter ≤ s'.counter ∧ s'.counter ≤ s.counter + 1 ∧
      issuedIds out = List.range' (s.counter + 1) (s'.counter - s.counter) := by
  refine ⟨hinv, by omega, by omega, ?_⟩
  rw [hcnt, Nat.add_sub_cancel_left, hout]
  rfl

theorem actorStep_inv (alive : Nat → Bool) (token : String) (s : ActorState)
    (i : ActorInput) (s' : ActorState) (out : List Output)
    (h : actorStep alive token s i = some (s', out))
    (hinv : Inv s) (hc : s.counter + 1 < u64Size) :
    Inv s' ∧ s.counter ≤ s'.counter ∧ s'.counter ≤ s.counter + 1 ∧
      issuedIds out = List.range' (s.counter + 1) (s'.counter - s.counter) := by
  cases i with
  | tick =>
      simp [actorStep] at h
      obtain ⟨rfl, rfl⟩ := h
      exact conclude_zero s s hinv rfl _ rfl
  | inbox inner reply =>
      simp [actorStep, Nat.mod_eq_of_lt hc] at h
      obtain ⟨rfl, rfl⟩ := h
      exact conclude_one s ⟨s.counter + 1, s.ready_send, mapInsert s.pending (s.counter + 1) reply⟩
        ⟨(Inv_insert s.counter s.pending reply hinv.1 hinv.2).1,
         (Inv_insert s.counter s.pending reply hinv.1 hinv.2).2⟩ rfl _ rfl
  | frame m =>
      cases m with
      | none => simp [actorStep] at h
      | some msg =>
        cases msg with
        | Close =>
            simp [actorStep] at h
            obtain ⟨rfl, rfl⟩ := h
            exact conclude_zero s s hinv rfl _ rfl
        | Other =>
            simp [actorStep] at h
            obtain ⟨rfl, rfl⟩ := h
            exact conclude_zero s s hinv rfl _ rfl
        | Pong payload =>
            simp [actorStep] at h
            obtain ⟨-, -, rfl, rfl⟩ := h
            exact conclude_zero s s hinv rfl _ rfl
        | Text parsed =>
          cases parsed with
          | none => simp [actorStep] at h
          | some resp =>
            obtain ⟨rid, rty, rres, rev⟩ := resp
            cases rty with
            | AuthRequired =>
                simp [actorStep] at h
                obtain ⟨rfl, rfl⟩ := h
                exact conclude_zero s s hinv rfl _ rfl
            | AuthInvalid =>
                simp [actorStep] at h
                obtain ⟨rfl, rfl⟩ := h
                exact conclude_zero s s hinv rfl _ rfl
            | AuthOk =>
                simp only [actorStep] at h
                cases hr : s.ready_send with
                | none => rw [hr] at h; simp at h
                | some u =>
                    rw [hr] at h
                    simp [Nat.mod_eq_of_lt hc] at h
                    obtain ⟨rfl, rfl⟩ := h
                    exact conclude_one s ⟨s.counter + 1, none, s.pending⟩
                      ⟨fun k hk => ⟨(hinv.1 k hk).1, (hinv.1 k hk).2.trans (Nat.le_succ _)⟩,
                       hinv.2⟩ rfl _ rfl
            | Result =>
                simp only [actorStep] at h
                cases rid with
                | none => simp at h
                | some k =>
                    simp only at h
                    cases hlk : List.lookup k s.pending with
                    | none =>
                        cases rres <;> simp [hlk] at h <;> obtain ⟨rfl, rfl⟩ := h <;>
                          exact conclude_zero s _ (Inv_erase s hinv k) rfl _ rfl
                    | some chan =>
                        cases rres with
                        | none =>
                            simp [hlk] at h
                            obtain ⟨rfl, rfl⟩ := h
                            exact conclude_zero s _ (Inv_erase s hinv k) rfl _ rfl
                        | some res =>
                            simp [hlk] at h
                            obtain ⟨rfl, rfl⟩ := h
                            exact conclude_zero s _ (Inv_erase s hinv k) rfl _ rfl
            | Event =>
                simp only [actorStep] at h
                cases rev with
                | none => simp at h
                | some e =>
                    simp at h
                    obtain ⟨rfl, rfl⟩ := h
                    exact conclude_zero s s hinv rfl _ rfl

theorem issuedIds_append (a b : List Output) :
    issuedIds (a ++ b) = issuedIds a ++ issuedIds b :=
  List.filterMap_append a b _

theorem Inv_init : Inv initState :=
  ⟨fun k hk => by simp [pendingKeys, initState] at hk,
   by simp [pendingKeys, initState]⟩

theorem actorRun_inv (alive : Nat → Bool) (token : String) :
    ∀ (inputs : List ActorInput) (s : ActorState),
      Inv s → s.counter + inputs.length < u64Size →
      ∀ s' outs, actorRun alive token s inputs = some (s', outs) →
        Inv s' ∧ s.counter ≤ s'.counter
        ∧ s'.counter ≤ s.counter + inputs.length
        ∧ issuedIds outs = List.range' (s.counter + 1) (s'.counter - s.counter) := by
  intro inputs
  induction inputs with
  | nil =>
      intro s hinv hc s' outs h
      simp [actorRun] at h
      obtain ⟨rfl, rfl⟩ := h
      exact ⟨hinv, le_rfl, by omega, by rw [Nat.sub_self]; rfl⟩
  | cons i rest ih =>
      intro s hinv hc s' outs h
      simp only [actorRun] at h
      cases hstep : actorStep alive token s i with
      | none => simp [hstep] at h
      | some p =>
          obtain ⟨s₁, out₁⟩ := p
          simp only [hstep] at h
          cases hrun : actorRun alive token s₁ rest with
          | none => simp [hrun] at h
          | some q =>
              obtain ⟨s₂, outs₂⟩ := q
              simp only [hrun] at h
              simp at h
              obtain ⟨rfl, rfl⟩ := h
              simp only [List.length_cons] at hc
              have hstepinv := actorStep_inv alive token s i s₁ out₁ hstep hinv (by omega)
              have hs₁ := hstepinv.2.2.1
              have hrec := ih s₁ hstepinv.1 (by omega) s₂ outs₂ hrun
              have hs₂ := hrec.2.2.1
              have hc₁ := hstepinv.2.1
              have hc₂ := hrec.2.1
              refine ⟨hrec.1, le_trans hc₁ hc₂, by simp only [List.length_cons]; omega, ?_⟩
              have e1 : (s.counter + 1) + (s₁.counter - s.counter) = s₁.counter + 1 := by omega
              have e2 : (s₂.counter - s₁.counter) + (s₁.counter - s.counter)
                  = s₂.counter - s.counter := by omega
              rw [issuedIds_append, hstepinv.2.2.2, hrec.2.2.2, ← e1,
                List.range'_append_1, e2]

/-- C6: from the freshly spawned actor, over any run that does not panic
(shorter than `2 ^ 64` steps, so the `u64` id counter cannot wrap), the ids
carried by the frames the actor writes — including the automatic
`subscribe_events` after `auth_ok` and every inbox request — are exactly
`1, 2, …, counter` in order: consecutive values of the single counter,
starting at 1, none ever reused; the pending-table keys are always
pairwise distinct; and at the moment of every insert
(`pending.insert(counter, reply)`) the freshly allocated id is absent from
the table, so no id is ever inserted twice. -/
theorem ids_monotonic_fresh (alive : Nat → Bool) (token : String)
    (inputs : List ActorInput) (hlen : inputs.length < u64Size) :
    (∀ s outs, actorRun alive token initState inputs = some (s, outs) →
       issuedIds outs = List.range' 1 s.counter
       ∧ (pendingKeys s.pending).Nodup)
    ∧ (∀ pre op ch suf, inputs = pre ++ .inbox op ch :: suf →
        ∀ s₁ outs₁, actorRun alive token initState pre = some (s₁, outs₁) →
          List.lookup ((s₁.counter + 1) % u64Size) s₁.pending = none) := by
  constructor
  · intro s outs h
    have hrun := actorRun_inv alive token inputs initState Inv_init
      (by simpa [initState] using hlen) s outs h
    refine ⟨?_, hrun.1.2⟩
    have := hrun.2.2.2
    simpa [initState] using this
  · intro pre op ch suf heq s₁ outs₁ hpre
    subst heq
    simp only [List.length_append, List.length_cons] at hlen
    have hrun := actorRun_inv alive token pre initState Inv_init
      (by simp [initState]; omega) s₁ outs₁ hpre
    have hcnt : s₁.counter ≤ pre.length := by
      have := hrun.2.2.1
      simpa [initState] using this
    rw [Nat.mod_eq_of_lt (by omega)]
    exact lookup_none_of_forall_lt s₁.pending (s₁.counter + 1)
      (fun k hk => by have := hrun.1.1 k hk; omega)

def wInputs : List ActorInput :=
  [authRequiredFrame, authOkFrame, .inbox .GetStates 7, .inbox .AreaRegistry 8]

def wState : ActorState := ⟨3, none, [(3, 8), (2, 7)]⟩

def wOuts : List Output :=
  [.wireSend [("type", JVal.s "auth"), ("access_token", JVal.s "t")],
   .readySignal,
   .wireSend [("id", JVal.n 1), ("type", JVal.s "subscribe_events"),
              ("event_type", JVal.s "state_changed")],
   .wireSend [("id", JVal.n 2), ("type", JVal.s "get_states")],
   .wireSend [("id", JVal.n 3), ("type", JVal.s "config/area_registry/list")]]

theorem ids_monotonic_fresh_witness :
    actorRun aliveT "t" initState wInputs = some (wState, wOuts)
    ∧ issuedIds wOuts = List.range' 1 wState.counter
    ∧ (pendingKeys wState.pending).Nodup
    ∧ List.lookup ((1 + 1) % u64Size) ([] : List (Nat × Nat)) = none := by
  have h := ids_monotonic_fresh aliveT "t" wInputs (by decide)
  have h1 := h.1 wState wOuts (by decide)
  have h2 := h.2 [authRequiredFrame, authOkFrame] .GetStates 7 [.inbox .AreaRegistry 8]
    (by decide) ⟨1, none, []⟩
    [.wireSend [("type", JVal.s "auth"), ("access_token", JVal.s "t")],
     .readySignal,
     .wireSend [("id", JVal.n 1), ("type", JVal.s "subscribe_events"),
                ("event_type", JVal.s "state_changed")]] (by decide)
  exact ⟨by decide, h1.1, h1.2, h2⟩

theorem foldl_send (E : List Event) :
    ∀ (b : Bus Event), (E.foldl Bus.send b).log = b.log ++ E
      ∧ (E.foldl Bus.send b).capacity = b.capacity := by
  induction E with
  | nil => intro b; simp
  | cons e t ih =>
      intro b
      have := ih (b.send e)
      simpa [Bus.send] using this

theorem busOf_log (E : List Event) :
    (busOf E).log = E ∧ (busOf E).capacity = 16 := by
  have := foldl_send E ⟨16, []⟩
  simpa [busOf] using this

theorem drain_countP {α : Type} (b : Bus α) (i : Nat) :
    ∀ (fuel c : Nat), b.log.length ≤ c + fuel →
      (b.drain c fuel).countP (fun p => p.1 == i) =
        if max c (b.log.length - b.capacity) ≤ i ∧ i < b.log.length then 1 else 0 := by
  intro fuel
  induction fuel with
  | zero =>
      intro c hc
      simp only [Bus.drain, List.countP_nil]
      rw [if_neg (by omega)]
  | succ fuel ih =>
      intro c hc
      by_cases h1 : b.log.length ≤ c
      · simp only [Bus.drain, Bus.recvAt, if_pos h1, List.countP_nil]
        rw [if_neg (by omega)]
      · by_cases h2 : c + b.capacity < b.log.length
        · simp only [Bus.drain, Bus.recvAt, if_neg h1, if_pos h2]
          rw [ih (b.log.length - b.capacity) (by omega)]
          rw [Nat.max_self, show max c (b.log.length - b.capacity)
            = b.log.length - b.capacity from by omega]
        · have hlt : c < b.log.length := by omega
          simp only [Bus.drain, Bus.recvAt, if_neg h1, if_neg h2,
            List.getElem?_eq_getElem hlt, List.countP_cons]
          rw [ih (c + 1) (by omega)]
          simp only [beq_iff_eq]
          split_ifs <;> omega

def evX : Event :=
  .StateChanged ⟨"light.kitchen", ⟨"light.kitchen", "off", "attrs"⟩,
    ⟨"light.kitchen", "on", "attrs"⟩⟩

/-- C8 (amended): with the actor's broadcast bus — requested capacity 10,
rounded up by tokio to a 16-slot ring — after the events `E` have been
published in order, a receiver whose cursor is `c` (it subscribed before
the publication of the event at position `i` exactly when `c ≤ i`) that
then drains the bus receives the event at position `i` exactly once —
provided the event is still inside the 16-entry ring, i.e. at most 15
further events followed it; a receiver that subscribed after the
publication (`i < c`) never receives it (no replay); and the actor's
`Event`-frame branch publishes exactly the frame's event to the bus. -/
theorem bus_fanout_exactly_once (E : List Event) (c i : Nat) (hi : i < E.length) :
    (c ≤ i → E.length ≤ i + 16 →
      ((busOf E).drain c E.length).countP (fun p => p.1 == i) = 1)
    ∧ (i < c →
      ((busOf E).drain c E.length).countP (fun p => p.1 == i) = 0)
    ∧ (∀ (alive : Nat → Bool) (token : String) (s : ActorState) (e : Event),
        actorStep alive token s (.frame (some (.Text (some ⟨none, .Event, none, some e⟩))))
          = some (s, [.publish e])) := by
  obtain ⟨hlog, hcap⟩ := busOf_log E
  have hdrain := drain_countP (busOf E) i E.length c (by rw [hlog]; omega)
  rw [hlog, hcap] at hdrain
  refine ⟨fun h1 h2 => ?_, fun h1 => ?_, fun alive token s e => rfl⟩
  · rw [hdrain, if_pos (by omega : max c (E.length - 16) ≤ i ∧ i < E.length)]
  · rw [hdrain, if_neg (by omega : ¬(max c (E.length - 16) ≤ i ∧ i < E.length))]

/-- C8 counterexample: a subscriber registered before any publication
(cursor 0) that lets 17 events arrive before reading receives *zero*
copies of the first event — the 16-slot ring has dropped it and the
receiver observes a lag — refuting the unconditional "each subscriber
registered before the publication receives exactly one copy". -/
theorem bus_lag_counterexample :
    ((busOf (List.replicate 17 evX)).drain 0 17).countP (fun p => p.1 == 0) = 0 := by
  decide

/-- C8 witness: with three published events, a cursor-0 subscriber
receives the position-1 event exactly once, and a subscriber registered
after it (cursor 2) never receives it. -/
theorem bus_fanout_exactly_once_witness :
    ((busOf (List.replicate 3 evX)).drain 0 3).countP (fun p => p.1 == 1) = 1
    ∧ ((busOf (List.replicate 3 evX)).drain 2 3).countP (fun p => p.1 == 1) = 0 := by
  constructor
  · exact (bus_fanout_exactly_once (List.replicate 3 evX) 0 1 (by decide)).1
      (by decide) (by decide)
  · exact (bus_fanout_exactly_once (List.replicate 3 evX) 2 1 (by decide)).2.1
      (by decide)

end Shalom

